import Mathlib

/-!
Verification of the tenon/mortise builder core
(`src/woodwork/tenon_mortise_builder.py`).

The development shallowly embeds the parts of the module that the
verified properties talk about:

* the combinatorial control flow (edge selection for subdivision, the
  tenon-face lookup in `create`, shoulder selection and the shoulder
  vertex-group computation, the haunch adjacency lookup) is embedded
  with executable Lean functions over explicit list-based models of the
  bmesh face/edge/loop graph; host mesh primitives (bmesh operators)
  are passed in as explicit function parameters;
* the floating-point scalar and vector arithmetic (`nearly_equal`,
  `same_direction`, distances, scale factors, translation vectors) is
  embedded over the real numbers, with `sys.float_info.min` modelled by
  the constant `2 ^ (-1022)`; tolerance predicates become `Prop`s that
  follow the source's `if`/`elif` control flow literally.

Tangent comparison inside purely combinatorial walks is abstracted as a
Boolean parameter (the decidable reflection of `same_direction`), since
those properties hold for an arbitrary direction predicate.
-/

namespace Woodwork

/-! ## Combinatorial mesh model -/

/-- A bmesh face as the combinatorial walks see it: an identity and its
list of vertex identifiers (`face.verts`). -/
structure FaceRef where
  fid : ℕ
  fverts : List ℕ
deriving DecidableEq

/-- One inner edge returned by `bmesh.ops.subdivide_edges` (an element of
`ret["geom_inner"]`), carrying its `link_faces`. -/
structure InnerEdge where
  link_faces : List FaceRef
deriving DecidableEq

/-- One axis configuration (`height_properties` or `thickness_properties`):
the fields `type` (`"fixed"` or `"max"`) and `centered` read by
`FaceToBeTransformed.subdivide_face`. -/
structure AxisProps where
  type : String
  centered : Bool
deriving DecidableEq

/-- The `FaceToBeTransformed` attributes used by `subdivide_face`: the seed
face's four edges (`self.face.edges`) and the two edge pairs
`longest_edges` / `shortest_edges` computed by `extract_features`.
Edges are identified by natural numbers. -/
structure FaceToBeTransformed where
  face_edges : List ℕ
  longest_edges : List ℕ
  shortest_edges : List ℕ
deriving DecidableEq

/-- The test `bool(props.type == "max" and props.centered)` from
`FaceToBeTransformed.subdivide_face`. -/
def maxCentered (p : AxisProps) : Bool :=
  p.type == "max" && p.centered

/-- The `edges_to_subdivide` selection logic of
`FaceToBeTransformed.subdivide_face` (lines 141-164): the variable starts
as the empty list, the first branch picks the shortest edges, the second
the longest ones, the third (`elif not (max_centered_height and
max_centered_thickness)`) all face edges, and no branch fires when both
axes are max+centered. -/
def FaceToBeTransformed.edges_to_subdivide
    (f : FaceToBeTransformed) (height_properties thickness_properties : AxisProps) :
    List ℕ :=
  let max_centered_height := maxCentered height_properties
  let max_centered_thickness := maxCentered thickness_properties
  if max_centered_height && !max_centered_thickness then
    f.shortest_edges
  else if max_centered_thickness && !max_centered_height then
    f.longest_edges
  else if !(max_centered_height && max_centered_thickness) then
    f.face_edges
  else
    []

/-- Method `FaceToBeTransformed.__subdivide_edges` composed with `subdivide_face`:
the host operator (`bmesh.ops.subdivide_edges`, abstracted as the
parameter `host` mapping the edge selection to the list of new inner
edges) is applied to the selected edges and the faces linked to any new
inner edge are collected. Python collects them into a `set`; the model
keeps the list, whose membership and emptiness are what the properties
use. -/
def FaceToBeTransformed.subdivide_face
    (host : List ℕ → List InnerEdge) (f : FaceToBeTransformed)
    (height_properties thickness_properties : AxisProps) : List FaceRef :=
  (host (f.edges_to_subdivide height_properties thickness_properties)).flatMap
    (fun e => e.link_faces)

/-- The tenon-face lookup at the start of `TenonMortiseBuilder.create`
(lines 770-780): `tenon` is bound to the seed face when the subdivision
returned nothing, rebound to the first subdivided face containing the
median; `none` models the Python `NameError` raised when the variable was
never bound. -/
def create_find_tenon (subdivided_faces : List FaceRef) (seed : FaceRef)
    (contains_median : FaceRef → Bool) : Option FaceRef :=
  match subdivided_faces.find? contains_median with
  | some f => some f
  | none => if subdivided_faces.isEmpty then some seed else none

end Woodwork

namespace Woodwork

/-! ## Shoulder selection (`ShoulderFace.get_from_tenon`) -/

/-- The loop body state machine of `ShoulderFace.get_from_tenon`
(lines 305-325): `face`/`origin_face_edge` are the object's fields
(both `None` at entry), a pair result models the fields after the loop,
and an early `break` returns immediately.  `origin_face_edges` is always
a two-element list at the call sites (`shortest_edges`/`longest_edges`),
modelled as a pair. -/
def get_from_tenon_loop {E : Type} (tenon_face : FaceRef)
    (reverse_shoulder : Bool) (origin_face_edges : E × E)
    (face : Option FaceRef) (origin_face_edge : Option E) :
    List FaceRef → Option FaceRef × Option E
  | [] => (face, origin_face_edge)
  | c :: rest =>
    if c ≠ tenon_face then
      if reverse_shoulder then
        match face with
        | some _ => (some c, some origin_face_edges.2)
        | none =>
          get_from_tenon_loop tenon_face reverse_shoulder origin_face_edges
            (some c) origin_face_edge rest
      else (some c, some origin_face_edges.1)
    else
      get_from_tenon_loop tenon_face reverse_shoulder origin_face_edges
        face origin_face_edge rest

/-- Method `ShoulderFace.get_from_tenon`: run the loop over the candidate faces
with both fields `None`, returning the final `(face, origin_face_edge)`
pair. -/
def ShoulderFace.get_from_tenon {E : Type} (tenon_face : FaceRef)
    (tenon_adjacent_faces : List FaceRef) (reverse_shoulder : Bool)
    (origin_face_edges : E × E) : Option FaceRef × Option E :=
  get_from_tenon_loop tenon_face reverse_shoulder origin_face_edges
    none none tenon_adjacent_faces

/-! ## Claim C1: edge selection of `subdivide_face` -/

/-- Claim C1, counterexample: with both axes `max`+centered,
`subdivide_face` selects no edge at all, not the four edges of the face
as the claim states. -/
theorem edges_to_subdivide_both_max_centered_not_all :
    FaceToBeTransformed.edges_to_subdivide
        ⟨[0, 1, 2, 3], [0, 2], [1, 3]⟩ ⟨"max", true⟩ ⟨"max", true⟩ ≠
      [0, 1, 2, 3] := by
  decide

/-- Claim C1 (amended): `subdivide_face` selects the two shortest edges
when height is max+centered and thickness is not, the two longest edges
in the symmetric case, no edge at all when both axes are max+centered,
and all four face edges otherwise. -/
theorem edges_to_subdivide_cases
    (f : FaceToBeTransformed) (hp tp : AxisProps) :
    f.edges_to_subdivide hp tp =
      if (hp.type = "max" ∧ hp.centered = true) ∧
          ¬(tp.type = "max" ∧ tp.centered = true) then f.shortest_edges
      else if (tp.type = "max" ∧ tp.centered = true) ∧
          ¬(hp.type = "max" ∧ hp.centered = true) then f.longest_edges
      else if (hp.type = "max" ∧ hp.centered = true) ∧
          (tp.type = "max" ∧ tp.centered = true) then []
      else f.face_edges := by
  have e1 : (maxCentered hp = true) ↔ (hp.type = "max" ∧ hp.centered = true) := by
    simp [maxCentered]
  have e2 : (maxCentered tp = true) ↔ (tp.type = "max" ∧ tp.centered = true) := by
    simp [maxCentered]
  rcases h1 : maxCentered hp <;> rcases h2 : maxCentered tp <;>
    simp only [FaceToBeTransformed.edges_to_subdivide, h1, h2, ← e1, ← e2] <;>
    simp

/-! ## Claim C2: no subdivision when both axes are max+centered -/

/-- Claim C2: when both height and thickness are `max`+centered, no edge
is selected, subdivision returns an empty face set (given that the host
subdivision operator produces no inner geometry when handed no edges),
and `create` falls back to the seed face itself as the tenon face. -/
theorem subdivide_face_both_max_centered_empty
    (host : List ℕ → List InnerEdge) (hhost : host [] = [])
    (f : FaceToBeTransformed) (hp tp : AxisProps)
    (seed : FaceRef) (contains_median : FaceRef → Bool)
    (hh : hp.type = "max" ∧ hp.centered = true)
    (ht : tp.type = "max" ∧ tp.centered = true) :
    f.edges_to_subdivide hp tp = [] ∧
    FaceToBeTransformed.subdivide_face host f hp tp = [] ∧
    create_find_tenon (FaceToBeTransformed.subdivide_face host f hp tp)
      seed contains_median = some seed := by
  have hm1 : maxCentered hp = true := by simp [maxCentered, hh.1, hh.2]
  have hm2 : maxCentered tp = true := by simp [maxCentered, ht.1, ht.2]
  have hsel : f.edges_to_subdivide hp tp = [] := by
    simp [FaceToBeTransformed.edges_to_subdivide, hm1, hm2]
  have hfaces : FaceToBeTransformed.subdivide_face host f hp tp = [] := by
    simp [FaceToBeTransformed.subdivide_face, hsel, hhost]
  refine ⟨hsel, hfaces, ?_⟩
  simp [create_find_tenon, hfaces]

/-- Claim C2, witness: a concrete host operator, seed face and
configuration instantiating the theorem. -/
theorem subdivide_face_both_max_centered_empty_witness :
    ((fun _ : List ℕ => ([] : List InnerEdge)) [] = ([] : List InnerEdge)) ∧
    (( "max" : String) = "max" ∧ true = true) ∧
    (FaceToBeTransformed.edges_to_subdivide
        ⟨[0, 1, 2, 3], [0, 2], [1, 3]⟩ ⟨"max", true⟩ ⟨"max", true⟩ = [] ∧
      FaceToBeTransformed.subdivide_face (fun _ => [])
        ⟨[0, 1, 2, 3], [0, 2], [1, 3]⟩ ⟨"max", true⟩ ⟨"max", true⟩ = [] ∧
      create_find_tenon
        (FaceToBeTransformed.subdivide_face (fun _ => [])
          ⟨[0, 1, 2, 3], [0, 2], [1, 3]⟩ ⟨"max", true⟩ ⟨"max", true⟩)
        ⟨9, [4, 5, 6, 7]⟩ (fun _ => false) = some ⟨9, [4, 5, 6, 7]⟩) :=
  ⟨rfl, ⟨rfl, rfl⟩,
    subdivide_face_both_max_centered_empty (fun _ => []) rfl
      ⟨[0, 1, 2, 3], [0, 2], [1, 3]⟩ ⟨"max", true⟩ ⟨"max", true⟩
      ⟨9, [4, 5, 6, 7]⟩ (fun _ => false) ⟨rfl, rfl⟩ ⟨rfl, rfl⟩⟩

/-! ## Claim C10: binding of the `tenon` variable in `create` -/

/-- Claim C10: the tenon variable of `create` is unbound (a `NameError`,
modelled as `none`) exactly when the subdivision produced a non-empty
face set none of whose faces contains the seed face's median point. -/
theorem create_find_tenon_none_iff
    (subdivided_faces : List FaceRef) (seed : FaceRef)
    (contains_median : FaceRef → Bool) :
    create_find_tenon subdivided_faces seed contains_median = none ↔
      subdivided_faces ≠ [] ∧
        ∀ g ∈ subdivided_faces, contains_median g = false := by
  unfold create_find_tenon
  rcases hfind : subdivided_faces.find? contains_median with _ | f
  · rw [List.find?_eq_none] at hfind
    constructor
    · intro h
      rcases hempty : subdivided_faces.isEmpty with hf | ht
      · refine ⟨?_, ?_⟩
        · intro hnil
          rw [hnil] at hempty
          simp at hempty
        · intro g hg
          simpa using hfind g hg
      · rw [hempty] at h
        simp at h
    · intro ⟨hne, _⟩
      have : subdivided_faces.isEmpty = false := by
        rcases subdivided_faces with _ | ⟨a, l⟩
        · exact absurd rfl hne
        · rfl
      simp [this]
  · constructor
    · intro h
      simp at h
    · intro ⟨_, hall⟩
      have hmem := List.find?_some hfind
      have hin := List.mem_of_find?_eq_some hfind
      rw [hall f hin] at hmem
      simp at hmem

/-! ## Claim C9: `get_from_tenon` with `reverse_shoulder` and a single candidate -/

/-- Helper: once every remaining candidate equals the tenon face, the
loop of `get_from_tenon` leaves its state untouched. -/
theorem get_from_tenon_loop_all_tenon {E : Type} (tenon_face : FaceRef)
    (reverse_shoulder : Bool) (origin_face_edges : E × E)
    (face : Option FaceRef) (origin_face_edge : Option E)
    (l : List FaceRef) (h : ∀ c ∈ l, c = tenon_face) :
    get_from_tenon_loop tenon_face reverse_shoulder origin_face_edges
      face origin_face_edge l = (face, origin_face_edge) := by
  induction l with
  | nil => rfl
  | cons a l ih =>
    have ha : a = tenon_face := h a (by simp)
    have hrest : ∀ c ∈ l, c = tenon_face := fun c hc => h c (by simp [hc])
    simp [get_from_tenon_loop, ha, ih hrest]

/-- Claim C9: when the candidate list contains exactly one face different
from the tenon, `get_from_tenon` with `reverse_shoulder = true` sets the
shoulder's face to that candidate but leaves `origin_face_edge` at
`None`; the second origin edge is never assigned. -/
theorem get_from_tenon_reverse_single_candidate {E : Type}
    (tenon_face : FaceRef) (tenon_adjacent_faces : List FaceRef)
    (origin_face_edges : E × E) (c : FaceRef)
    (h : tenon_adjacent_faces.filter (fun g => decide (g ≠ tenon_face)) = [c]) :
    ShoulderFace.get_from_tenon tenon_face tenon_adjacent_faces true
      origin_face_edges = (some c, none) := by
  unfold ShoulderFace.get_from_tenon
  induction tenon_adjacent_faces with
  | nil => simp at h
  | cons a l ih =>
    by_cases ha : a = tenon_face
    · have hfa : decide (a ≠ tenon_face) = false := by simp [ha]
      rw [List.filter_cons_of_neg (by simp [hfa])] at h
      simp [get_from_tenon_loop, ha, ih h]
    · have hfa : decide (a ≠ tenon_face) = true := by simp [ha]
      rw [List.filter_cons_of_pos (by simp [hfa])] at h
      have hac : a = c := by
        have := congrArg (fun t => t.head?) h
        simpa using this
      have hrest : l.filter (fun g => decide (g ≠ tenon_face)) = [] := by
        have := congrArg (fun t => t.tail) h
        simpa using this
      have hall : ∀ g ∈ l, g = tenon_face := by
        intro g hg
        by_contra hne
        have : g ∈ l.filter (fun x => decide (x ≠ tenon_face)) := by
          rw [List.mem_filter]
          exact ⟨hg, by simp [hne]⟩
        rw [hrest] at this
        simp at this
      rw [hac] at ha ⊢
      simp only [get_from_tenon_loop, if_pos ha]
      exact get_from_tenon_loop_all_tenon tenon_face true origin_face_edges
        (some c) none l hall

/-- Claim C9, witness: two candidates, one equal to the tenon face, the
other the unique shoulder candidate. -/
theorem get_from_tenon_reverse_single_candidate_witness :
    ([(⟨0, [0, 1]⟩ : FaceRef), ⟨1, [2, 3]⟩].filter
        (fun g => decide (g ≠ (⟨0, [0, 1]⟩ : FaceRef))) = [⟨1, [2, 3]⟩]) ∧
    ShoulderFace.get_from_tenon (⟨0, [0, 1]⟩ : FaceRef)
        [⟨0, [0, 1]⟩, ⟨1, [2, 3]⟩] true ((10, 11) : ℕ × ℕ) =
      (some ⟨1, [2, 3]⟩, none) :=
  ⟨by decide,
    get_from_tenon_reverse_single_candidate ⟨0, [0, 1]⟩
      [⟨0, [0, 1]⟩, ⟨1, [2, 3]⟩] ((10, 11) : ℕ × ℕ) ⟨1, [2, 3]⟩ (by decide)⟩

/-! ## Claim C8: haunch adjacency lookup
(`TenonMortiseBuilder.__find__tenon_haunch_adjacent_face`) -/

/-- A face candidate of the haunch adjacency lookup: its identity and its
normal.  The normal lives in an abstract direction type `T`; negation
(`normal.negate()`) and the comparison `nearly_equal(side_tangent.angle
(normal), pi)` are passed in as parameters. -/
structure NormalFace (T : Type) where
  nid : ℕ
  normal : T
deriving DecidableEq

/-- The candidate test inside the adjacency lookup (lines 536-545): the
face differs from the tenon top and, after negating the normal when the
joint is a mortise, the side tangent is at angle approximately pi to
it. -/
def haunch_candidate_test {T : Type} (angle_pi : T → T → Bool) (neg : T → T)
    (is_mortise : Bool) (side_tangent : T) (tenon_top_id : ℕ)
    (f : NormalFace T) : Bool :=
  decide (f.nid ≠ tenon_top_id) &&
    angle_pi side_tangent (if is_mortise then neg f.normal else f.normal)

/-- Method `TenonMortiseBuilder.__find__tenon_haunch_adjacent_face`
(lines 527-548): `is_mortise` is `depth_value < 0.0`; the double loop with
its two `break`s returns the first matching face, scanning the tenon
top's edges in order and each edge's linked faces in order.
`edge_link_faces` holds `edge.link_faces` for each edge of `tenon_top`. -/
def find_tenon_haunch_adjacent_face {T : Type} (angle_pi : T → T → Bool)
    (neg : T → T) (depth_value : ℚ) (side_tangent : T) (tenon_top_id : ℕ)
    (edge_link_faces : List (List (NormalFace T))) : Option (NormalFace T) :=
  let is_mortise := decide (depth_value < 0)
  edge_link_faces.foldl
    (fun adjacent_face lf =>
      match adjacent_face with
      | some f => some f
      | none =>
        lf.find? (haunch_candidate_test angle_pi neg is_mortise side_tangent
          tenon_top_id))
    none

/-- Helper: the fold with early exit over the edge list finds the first
match of the flattened candidate list. -/
theorem foldl_first_match_eq_find {T : Type} (p : NormalFace T → Bool)
    (ls : List (List (NormalFace T))) (init : Option (NormalFace T)) :
    ls.foldl
        (fun acc lf =>
          match acc with
          | some f => some f
          | none => lf.find? p)
        init =
      match init with
      | some f => some f
      | none => ls.flatten.find? p := by
  induction ls generalizing init with
  | nil => cases init <;> simp
  | cons a ls ih =>
    cases init with
    | some f =>
      simp only [List.foldl_cons]
      exact ih (some f)
    | none =>
      simp only [List.foldl_cons, List.flatten_cons, List.find?_append]
      rcases ha : a.find? p with _ | f
      · simpa [ha] using ih none
      · simpa [ha] using ih (some f)

/-- Claim C8: the haunch adjacency lookup returns the first face linked
to a tenon-top edge, different from the tenon top, whose normal --
negated exactly when `depth_value < 0` (mortise), untouched otherwise,
in particular when `depth_value > 0` -- is at angle approximately pi to
the side tangent. -/
theorem find_tenon_haunch_adjacent_face_spec {T : Type}
    (angle_pi : T → T → Bool) (neg : T → T) (depth_value : ℚ)
    (side_tangent : T) (tenon_top_id : ℕ)
    (edge_link_faces : List (List (NormalFace T))) :
    find_tenon_haunch_adjacent_face angle_pi neg depth_value side_tangent
        tenon_top_id edge_link_faces =
      edge_link_faces.flatten.find?
        (fun f => decide (f.nid ≠ tenon_top_id) &&
          angle_pi side_tangent
            (if depth_value < 0 then neg f.normal else f.normal)) := by
  unfold find_tenon_haunch_adjacent_face
  rw [foldl_first_match_eq_find]
  have hp : (haunch_candidate_test angle_pi neg (decide (depth_value < 0))
        side_tangent tenon_top_id) =
      (fun f => decide (f.nid ≠ tenon_top_id) &&
        angle_pi side_tangent
          (if depth_value < 0 then neg f.normal else f.normal)) := by
    funext g
    by_cases hd : depth_value < 0 <;> simp [haunch_candidate_test, hd]
  rw [hp]

/-! ## Claim C7: `ShoulderFace.find_verts_to_translate` -/

/-- One loop attached to an edge (`edge.link_loops`): the identity of the
loop's face and the tangent of the edge relative to that loop
(`edge.calc_tangent(loop)`), in an abstract direction type `T`. -/
structure EdgeLoop (T : Type) where
  lface : ℕ
  ltangent : T
deriving DecidableEq

/-- An edge of the mesh as `find_verts_to_translate` sees it: its
identity, its linked faces and its linked loops. -/
structure MeshEdge (T : Type) where
  eid : ℕ
  link_faces : List FaceRef
  link_loops : List (EdgeLoop T)
deriving DecidableEq

/-- One loop of the shoulder face itself: the loop's edge and the tangent
of that edge relative to this loop (used by the fallback branch which
reads `shoulder_face.loops[0]` and `loops[1]`). -/
structure OwnLoop (T : Type) where
  oedge : MeshEdge T
  otangent : T
deriving DecidableEq

/-- The shoulder face: its `FaceRef` (identity and vertices) and its
loops in order; `shoulder_face.edges` is the loops' edges in order. -/
structure MeshFace (T : Type) where
  mref : FaceRef
  mloops : List (OwnLoop T)
deriving DecidableEq

/-- The body of the triple loop in `find_verts_to_translate`
(lines 333-348) for a single edge: every linked face different from the
shoulder face is appended once per linked loop belonging to the shoulder
face whose tangent matches the origin tangent.  `same_dir` is the
decidable reflection of `same_direction` on the direction type. -/
def edge_matched_faces {T : Type} (same_dir : T → T → Bool)
    (shoulder_ref : FaceRef) (origin_face_tangent : T) (e : MeshEdge T) :
    List FaceRef :=
  e.link_faces.flatMap (fun connected_face =>
    if connected_face = shoulder_ref then []
    else
      e.link_loops.flatMap (fun connected_loop =>
        if connected_loop.lface = shoulder_ref.fid &&
            same_dir connected_loop.ltangent origin_face_tangent then
          [connected_face]
        else []))

/-- The edge scan of `find_verts_to_translate`: collects the appended
faces over all edges in order, and records as reference edge the first
edge during whose visit an append happened (the field starts at `None`
and is only written when still `None`). -/
def shoulder_scan {T : Type} (same_dir : T → T → Bool)
    (shoulder_ref : FaceRef) (origin_face_tangent : T) :
    List (MeshEdge T) → List FaceRef × Option (MeshEdge T)
  | [] => ([], none)
  | e :: rest =>
    let m := edge_matched_faces same_dir shoulder_ref origin_face_tangent e
    let r := shoulder_scan same_dir shoulder_ref origin_face_tangent rest
    (m ++ r.1, if m = [] then r.2 else some e)

/-- The fallback of `find_verts_to_translate` (lines 352-363): when no
neighbour matched, the reference edge is the first loop's edge if its
tangent matches the origin tangent, the second loop's edge otherwise. -/
def fallback_reference_edge {T : Type} (same_dir : T → T → Bool)
    (origin_face_tangent : T) : List (OwnLoop T) → Option (MeshEdge T)
  | l0 :: l1 :: _ =>
    if same_dir l0.otangent origin_face_tangent then some l0.oedge
    else some l1.oedge
  | _ => none

/-- Method `ShoulderFace.find_verts_to_translate` (lines 327-376): scan the
shoulder face's edges extending the face group, resolve the reference
edge (scan result or fallback), and return the intersection of the
group's vertex set with the tenon faces' vertex set, together with the
reference edge the call stores on the object. -/
def ShoulderFace.find_verts_to_translate {T : Type}
    (same_dir : T → T → Bool) (shoulder_face : MeshFace T)
    (origin_face_tangent : T) (tenon_faces : List FaceRef) :
    Finset ℕ × Option (MeshEdge T) :=
  let scan := shoulder_scan same_dir shoulder_face.mref origin_face_tangent
    (shoulder_face.mloops.map (fun l => l.oedge))
  let shoulder_faces := shoulder_face.mref :: scan.1
  let reference_edge :=
    match scan.2 with
    | some e => some e
    | none =>
      fallback_reference_edge same_dir origin_face_tangent
        shoulder_face.mloops
  let shoulder_verts := (shoulder_faces.flatMap (fun f => f.fverts)).toFinset
  let tenon_verts := (tenon_faces.flatMap (fun f => f.fverts)).toFinset
  (shoulder_verts ∩ tenon_verts, reference_edge)

/-- Declarative description of the face group extension: a face belongs
to it when it differs from the shoulder face and is linked to one of the
shoulder's edges by an edge having a loop of the shoulder face whose
tangent matches the origin tangent. -/
def matched_neighbor {T : Type} (same_dir : T → T → Bool)
    (shoulder_face : MeshFace T) (origin_face_tangent : T)
    (cf : FaceRef) : Prop :=
  cf ≠ shoulder_face.mref ∧
    ∃ l ∈ shoulder_face.mloops, cf ∈ l.oedge.link_faces ∧
      ∃ cl ∈ l.oedge.link_loops, cl.lface = shoulder_face.mref.fid ∧
        same_dir cl.ltangent origin_face_tangent = true

instance matched_neighbor_decidable {T : Type} (same_dir : T → T → Bool)
    (shoulder_face : MeshFace T) (origin_face_tangent : T) (cf : FaceRef) :
    Decidable (matched_neighbor same_dir shoulder_face origin_face_tangent
      cf) := by
  unfold matched_neighbor
  exact inferInstance

/-- The vertex set of the shoulder face group, described declaratively:
the shoulder face's vertices united with the vertices of every matched
neighbour. -/
def shoulder_group_verts {T : Type} (same_dir : T → T → Bool)
    (shoulder_face : MeshFace T) (origin_face_tangent : T) : Finset ℕ :=
  shoulder_face.mref.fverts.toFinset ∪
    (((shoulder_face.mloops.flatMap (fun l => l.oedge.link_faces)).filter
        (fun cf =>
          decide (matched_neighbor same_dir shoulder_face origin_face_tangent
            cf))).flatMap
      (fun f => f.fverts)).toFinset

/-- Helper: membership in the faces appended while visiting one edge. -/
theorem mem_edge_matched_faces {T : Type} (same_dir : T → T → Bool)
    (shoulder_ref : FaceRef) (origin_face_tangent : T) (e : MeshEdge T)
    (cf : FaceRef) :
    cf ∈ edge_matched_faces same_dir shoulder_ref origin_face_tangent e ↔
      cf ≠ shoulder_ref ∧ cf ∈ e.link_faces ∧
        ∃ cl ∈ e.link_loops, cl.lface = shoulder_ref.fid ∧
          same_dir cl.ltangent origin_face_tangent = true := by
  unfold edge_matched_faces
  rw [List.mem_flatMap]
  constructor
  · rintro ⟨g, hg, hmem⟩
    by_cases hgs : g = shoulder_ref
    · rw [if_pos hgs] at hmem
      simp at hmem
    · rw [if_neg hgs, List.mem_flatMap] at hmem
      obtain ⟨cl, hcl, hin⟩ := hmem
      by_cases hc : (cl.lface = shoulder_ref.fid &&
          same_dir cl.ltangent origin_face_tangent) = true
      · rw [if_pos hc] at hin
        rw [List.mem_singleton] at hin
        subst hin
        rw [Bool.and_eq_true, decide_eq_true_eq] at hc
        exact ⟨hgs, hg, cl, hcl, hc.1, hc.2⟩
      · rw [if_neg hc] at hin
        simp at hin
  · rintro ⟨hne, hlf, cl, hcl, h1, h2⟩
    refine ⟨cf, hlf, ?_⟩
    rw [if_neg hne, List.mem_flatMap]
    refine ⟨cl, hcl, ?_⟩
    rw [if_pos (by rw [Bool.and_eq_true, decide_eq_true_eq]; exact ⟨h1, h2⟩)]
    exact List.mem_singleton.mpr rfl

/-- Helper: the faces collected by the scan are those appended at some
edge. -/
theorem mem_shoulder_scan_fst {T : Type} (same_dir : T → T → Bool)
    (shoulder_ref : FaceRef) (origin_face_tangent : T)
    (es : List (MeshEdge T)) (cf : FaceRef) :
    cf ∈ (shoulder_scan same_dir shoulder_ref origin_face_tangent es).1 ↔
      ∃ e ∈ es,
        cf ∈ edge_matched_faces same_dir shoulder_ref origin_face_tangent
          e := by
  induction es with
  | nil => simp [shoulder_scan]
  | cons a es ih =>
    simp only [shoulder_scan, List.mem_append, ih, List.mem_cons]
    constructor
    · rintro (h | ⟨e, he, hm⟩)
      · exact ⟨a, Or.inl rfl, h⟩
      · exact ⟨e, Or.inr he, hm⟩
    · rintro ⟨e, he | he, hm⟩
      · subst he
        exact Or.inl hm
      · exact Or.inr ⟨e, he, hm⟩

/-- Helper: a face is collected by the scan over the shoulder face's own
edges exactly when it is a matched neighbour. -/
theorem mem_scan_iff_matched {T : Type} (same_dir : T → T → Bool)
    (shoulder_face : MeshFace T) (origin_face_tangent : T) (cf : FaceRef) :
    cf ∈ (shoulder_scan same_dir shoulder_face.mref origin_face_tangent
        (shoulder_face.mloops.map (fun l => l.oedge))).1 ↔
      matched_neighbor same_dir shoulder_face origin_face_tangent cf := by
  rw [mem_shoulder_scan_fst]
  unfold matched_neighbor
  constructor
  · rintro ⟨e, he, hm⟩
    rw [List.mem_map] at he
    obtain ⟨l, hl, hle⟩ := he
    rw [mem_edge_matched_faces] at hm
    obtain ⟨hne, hlf, hcl⟩ := hm
    subst hle
    exact ⟨hne, l, hl, hlf, hcl⟩
  · rintro ⟨hne, l, hl, hlf, hcl⟩
    refine ⟨l.oedge, List.mem_map.mpr ⟨l, hl, rfl⟩, ?_⟩
    rw [mem_edge_matched_faces]
    exact ⟨hne, hlf, hcl⟩

/-- Helper: membership in the declaratively filtered neighbour list. -/
theorem mem_filtered_iff_matched {T : Type} (same_dir : T → T → Bool)
    (shoulder_face : MeshFace T) (origin_face_tangent : T) (cf : FaceRef) :
    cf ∈ (shoulder_face.mloops.flatMap
          (fun l => l.oedge.link_faces)).filter
        (fun g =>
          decide (matched_neighbor same_dir shoulder_face origin_face_tangent
            g)) ↔
      matched_neighbor same_dir shoulder_face origin_face_tangent cf := by
  rw [List.mem_filter, decide_eq_true_eq]
  constructor
  · exact And.right
  · intro h
    refine ⟨?_, h⟩
    obtain ⟨-, l, hl, hlf, -⟩ := h
    exact List.mem_flatMap.mpr ⟨l, hl, hlf⟩

/-- Claim C7: `find_verts_to_translate` returns exactly the intersection
of the shoulder face group's vertex set (shoulder face plus matched
neighbours) with the union of the tenon faces' vertices; and when the
scan matched no neighbour, the reference edge comes from the shoulder
face's first two loop edges by tangent comparison against the origin
tangent. -/
theorem find_verts_to_translate_spec {T : Type} (same_dir : T → T → Bool)
    (shoulder_face : MeshFace T) (origin_face_tangent : T)
    (tenon_faces : List FaceRef) :
    (ShoulderFace.find_verts_to_translate same_dir shoulder_face
          origin_face_tangent tenon_faces).1 =
        shoulder_group_verts same_dir shoulder_face origin_face_tangent ∩
          (tenon_faces.flatMap (fun f => f.fverts)).toFinset ∧
      ((shoulder_scan same_dir shoulder_face.mref origin_face_tangent
            (shoulder_face.mloops.map (fun l => l.oedge))).2 = none →
        (ShoulderFace.find_verts_to_translate same_dir shoulder_face
            origin_face_tangent tenon_faces).2 =
          fallback_reference_edge same_dir origin_face_tangent
            shoulder_face.mloops) := by
  constructor
  · ext v
    simp only [ShoulderFace.find_verts_to_translate, shoulder_group_verts,
      Finset.mem_inter, Finset.mem_union, List.mem_toFinset,
      List.mem_flatMap, List.mem_cons]
    constructor
    · rintro ⟨⟨g, hg | hg, hv⟩, ht⟩
      · subst hg
        exact ⟨Or.inl hv, ht⟩
      · rw [mem_scan_iff_matched] at hg
        exact ⟨Or.inr ⟨g, (mem_filtered_iff_matched same_dir shoulder_face
          origin_face_tangent g).mpr hg, hv⟩, ht⟩
    · rintro ⟨hv | ⟨g, hg, hv⟩, ht⟩
      · exact ⟨⟨shoulder_face.mref, Or.inl rfl, hv⟩, ht⟩
      · rw [mem_filtered_iff_matched] at hg
        exact ⟨⟨g, Or.inr ((mem_scan_iff_matched same_dir shoulder_face
          origin_face_tangent g).mpr hg), hv⟩, ht⟩
  · intro h
    simp only [ShoulderFace.find_verts_to_translate, h]

/-- Claim C7, witness: a concrete two-loop shoulder face with no matching
neighbour, exercising both the intersection and the fallback branch. -/
theorem find_verts_to_translate_spec_witness :
    (ShoulderFace.find_verts_to_translate (fun a b : ℕ => a == b)
          ⟨⟨0, [0, 1, 2, 3]⟩,
            [⟨⟨10, [⟨1, [2, 3, 4, 5]⟩], [⟨0, 9⟩]⟩, 5⟩,
              ⟨⟨11, [], []⟩, 6⟩]⟩
          7 [⟨2, [3, 4]⟩]).1 =
        shoulder_group_verts (fun a b : ℕ => a == b)
            ⟨⟨0, [0, 1, 2, 3]⟩,
              [⟨⟨10, [⟨1, [2, 3, 4, 5]⟩], [⟨0, 9⟩]⟩, 5⟩,
                ⟨⟨11, [], []⟩, 6⟩]⟩ 7 ∩
          ([(⟨2, [3, 4]⟩ : FaceRef)].flatMap (fun f => f.fverts)).toFinset ∧
      ((shoulder_scan (fun a b : ℕ => a == b) ⟨0, [0, 1, 2, 3]⟩ 7
            ([⟨⟨10, [⟨1, [2, 3, 4, 5]⟩], [⟨0, 9⟩]⟩, 5⟩,
                ⟨⟨11, [], []⟩, 6⟩].map
              (fun l : OwnLoop ℕ => l.oedge))).2 = none →
        (ShoulderFace.find_verts_to_translate (fun a b : ℕ => a == b)
            ⟨⟨0, [0, 1, 2, 3]⟩,
              [⟨⟨10, [⟨1, [2, 3, 4, 5]⟩], [⟨0, 9⟩]⟩, 5⟩,
                ⟨⟨11, [], []⟩, 6⟩]⟩
            7 [⟨2, [3, 4]⟩]).2 =
          fallback_reference_edge (fun a b : ℕ => a == b) 7
            [⟨⟨10, [⟨1, [2, 3, 4, 5]⟩], [⟨0, 9⟩]⟩, 5⟩,
              ⟨⟨11, [], []⟩, 6⟩]) :=
  find_verts_to_translate_spec (fun a b : ℕ => a == b)
    ⟨⟨0, [0, 1, 2, 3]⟩,
      [⟨⟨10, [⟨1, [2, 3, 4, 5]⟩], [⟨0, 9⟩]⟩, 5⟩, ⟨⟨11, [], []⟩, 6⟩]⟩
    7 [⟨2, [3, 4]⟩]

/-! ## Real-valued geometry

The scalar helpers (`nearly_equal`, `same_direction`,
`distance_point_edge`) and the vector computations of `TenonFace` are
embedded over the real numbers.  `mathutils.Vector` becomes `Vec3`;
`sys.float_info.min` (the smallest positive normal double, `2 ^ (-1022)`)
becomes the constant `smallest_normal`; `matrix_world *` application is
an opaque function `Vec3 → Vec3` since the source only ever applies the
matrix to points. -/

noncomputable section

/-- A 3-component vector (`mathutils.Vector`). -/
structure Vec3 where
  x : ℝ
  y : ℝ
  z : ℝ

instance : Zero Vec3 := ⟨⟨0, 0, 0⟩⟩

instance : Add Vec3 := ⟨fun a b => ⟨a.x + b.x, a.y + b.y, a.z + b.z⟩⟩

instance : Sub Vec3 := ⟨fun a b => ⟨a.x - b.x, a.y - b.y, a.z - b.z⟩⟩

instance : Neg Vec3 := ⟨fun a => ⟨-a.x, -a.y, -a.z⟩⟩

instance : SMul ℝ Vec3 := ⟨fun s a => ⟨s * a.x, s * a.y, s * a.z⟩⟩

@[simp] theorem Vec3.zero_x : (0 : Vec3).x = 0 := rfl

@[simp] theorem Vec3.zero_y : (0 : Vec3).y = 0 := rfl

@[simp] theorem Vec3.zero_z : (0 : Vec3).z = 0 := rfl

@[simp] theorem Vec3.add_x (a b : Vec3) : (a + b).x = a.x + b.x := rfl

@[simp] theorem Vec3.add_y (a b : Vec3) : (a + b).y = a.y + b.y := rfl

@[simp] theorem Vec3.add_z (a b : Vec3) : (a + b).z = a.z + b.z := rfl

@[simp] theorem Vec3.sub_x (a b : Vec3) : (a - b).x = a.x - b.x := rfl

@[simp] theorem Vec3.sub_y (a b : Vec3) : (a - b).y = a.y - b.y := rfl

@[simp] theorem Vec3.sub_z (a b : Vec3) : (a - b).z = a.z - b.z := rfl

@[simp] theorem Vec3.neg_x (a : Vec3) : (-a).x = -a.x := rfl

@[simp] theorem Vec3.neg_y (a : Vec3) : (-a).y = -a.y := rfl

@[simp] theorem Vec3.neg_z (a : Vec3) : (-a).z = -a.z := rfl

@[simp] theorem Vec3.smul_x (s : ℝ) (a : Vec3) : (s • a).x = s * a.x := rfl

@[simp] theorem Vec3.smul_y (s : ℝ) (a : Vec3) : (s • a).y = s * a.y := rfl

@[simp] theorem Vec3.smul_z (s : ℝ) (a : Vec3) : (s • a).z = s * a.z := rfl

theorem Vec3.ext_iff {a b : Vec3} :
    a = b ↔ a.x = b.x ∧ a.y = b.y ∧ a.z = b.z := by
  constructor
  · rintro rfl
    exact ⟨rfl, rfl, rfl⟩
  · rintro ⟨h1, h2, h3⟩
    cases a
    cases b
    simp only at h1 h2 h3
    rw [h1, h2, h3]

/-- The Euclidean dot product of two vectors. -/
def Vec3.dot (a b : Vec3) : ℝ := a.x * b.x + a.y * b.y + a.z * b.z

/-- Property `Vector.length`: the Euclidean norm. -/
def Vec3.length (a : Vec3) : ℝ := Real.sqrt (a.x ^ 2 + a.y ^ 2 + a.z ^ 2)

/-- Method `Vector.angle`: the unsigned angle between two vectors,
`acos(dot / (|a| * |b|))`. -/
def Vec3.angle (a b : Vec3) : ℝ :=
  Real.arccos (Vec3.dot a b / (a.length * b.length))

/-- Constant `sys.float_info.min`: the smallest positive normal IEEE-754 double,
`2 ^ (-1022)`. -/
def smallest_normal : ℝ := 1 / 2 ^ 1022

/-- The default `epsilon=0.00001` of `nearly_equal`. -/
def epsilon_default : ℝ := 1 / 100000

/-- Function `nearly_equal(a, b, epsilon)` (lines 8-18), rendered as a proposition
that follows the `if`/`elif`/`else` control flow literally: exact
equality short-circuits; the near-zero branch compares the absolute
difference against `epsilon * float_info.min`; the general branch uses
the relative difference `|a - b| / (|a| + |b|)`. -/
def nearly_equal (a b epsilon : ℝ) : Prop :=
  a = b ∨
    (a ≠ b ∧ (a = 0 ∨ b = 0 ∨ |a - b| < smallest_normal) ∧
      |a - b| < epsilon * smallest_normal) ∨
    (a ≠ b ∧ ¬(a = 0 ∨ b = 0 ∨ |a - b| < smallest_normal) ∧
      |a - b| / (|a| + |b|) < epsilon)

/-- Function `same_direction(tangent0, tangent1)` (lines 21-24): the angle between
the two vectors is nearly 0 or nearly pi. -/
def same_direction (tangent0 tangent1 : Vec3) : Prop :=
  nearly_equal (tangent0.angle tangent1) 0 epsilon_default ∨
    nearly_equal (tangent0.angle tangent1) Real.pi epsilon_default

/-- A mesh edge as the vector computations see it: the local coordinates
of its two vertices (`edge.verts[0].co`, `edge.verts[1].co`). -/
structure GeomEdge where
  v0 : Vec3
  v1 : Vec3

/-- Function `mathutils.geometry.intersect_point_line(pt, p1, p2)`: the closest
point to `pt` on the infinite line through `p1` and `p2`, and the
projection fraction along the segment. -/
def intersect_point_line (pt line_p1 line_p2 : Vec3) : Vec3 × ℝ :=
  let d := line_p2 - line_p1
  let t := Vec3.dot (pt - line_p1) d / Vec3.dot d d
  (line_p1 + t • d, t)

/-- Function `distance_point_edge(pt, edge)` (lines 27-33): the distance from the
point to its projection on the edge's line. -/
def distance_point_edge (pt : Vec3) (edge : GeomEdge) : ℝ :=
  let ret := intersect_point_line pt edge.v0 edge.v1
  let closest_point_on_line := ret.1
  (closest_point_on_line - pt).length

/-- The world-space length of an edge's endpoints under the world
matrix. -/
def world_length (edge : GeomEdge) (matrix_world : Vec3 → Vec3) : ℝ :=
  (matrix_world edge.v0 - matrix_world edge.v1).length

/-- Method `TenonFace.get_scale_factor(reference_edge, matrix_world,
resize_value)` (lines 252-261). -/
def TenonFace.get_scale_factor (reference_edge : GeomEdge)
    (matrix_world : Vec3 → Vec3) (resize_value : ℝ) : ℝ :=
  let v0_world := matrix_world reference_edge.v0
  let v1_world := matrix_world reference_edge.v1
  let to_be_resized := (v0_world - v1_world).length
  resize_value / to_be_resized

/-- The shoulder data used by
`compute_translation_vector_given_shoulder`: only the
`origin_face_edge` field is read. -/
structure GeomShoulder where
  origin_face_edge : GeomEdge

/-- Method `TenonFace.compute_translation_vector_given_shoulder` (lines
263-284): pick the edge vector pointing from the endpoint closer to the
shoulder's origin face edge towards the farther endpoint (in world
space), scale it, and return the difference between the scaled and the
original vector. -/
def TenonFace.compute_translation_vector_given_shoulder
    (reference_edge : GeomEdge) (shoulder : GeomShoulder)
    (scale_factor : ℝ) (matrix_world : Vec3 → Vec3) : Vec3 :=
  let v0_world := matrix_world reference_edge.v0
  let v1_world := matrix_world reference_edge.v1
  let length1 := distance_point_edge reference_edge.v1
    shoulder.origin_face_edge
  let length0 := distance_point_edge reference_edge.v0
    shoulder.origin_face_edge
  let edge_vector := if length0 < length1 then v1_world - v0_world
    else v0_world - v1_world
  let final_vector := scale_factor • edge_vector
  final_vector - edge_vector

end

/-! ## Numeric helper facts -/

theorem smallest_normal_pos : 0 < smallest_normal := by
  unfold smallest_normal
  positivity

theorem smallest_normal_le_one : smallest_normal ≤ 1 := by
  unfold smallest_normal
  rw [div_le_one (by positivity)]
  exact one_le_pow₀ (by norm_num : (1:ℝ) ≤ 2)

theorem epsilon_default_lt_one : epsilon_default < 1 := by
  unfold epsilon_default
  norm_num

theorem epsilon_default_pos : 0 < epsilon_default := by
  unfold epsilon_default
  norm_num

theorem eps_mul_sn_le_one : epsilon_default * smallest_normal ≤ 1 := by
  have h1 := epsilon_default_lt_one
  have h2 := smallest_normal_le_one
  have h3 := smallest_normal_pos
  nlinarith

/-! ## Claim C4: the near-zero branch of `nearly_equal` -/

/-- Claim C4: when exactly one argument is zero, `nearly_equal` holds iff
the absolute difference is below `epsilon * float_info.min`; hence for
any `b` at least `float_info.min` away (every normal nonzero double) the
comparison against zero is false. -/
theorem nearly_equal_near_zero_exact (a b : ℝ)
    (h : (a = 0 ∧ b ≠ 0) ∨ (b = 0 ∧ a ≠ 0)) :
    (nearly_equal a b epsilon_default ↔
        |a - b| < epsilon_default * smallest_normal) ∧
      (smallest_normal ≤ |a - b| → ¬ nearly_equal a b epsilon_default) := by
  have hab : a ≠ b := by
    rcases h with ⟨h0, hne⟩ | ⟨h0, hne⟩
    · intro he
      exact hne (by rw [← he, h0])
    · intro he
      exact hne (by rw [he, h0])
  have hz : a = 0 ∨ b = 0 := by
    rcases h with ⟨h0, -⟩ | ⟨h0, -⟩
    · exact Or.inl h0
    · exact Or.inr h0
  have hiff : nearly_equal a b epsilon_default ↔
      |a - b| < epsilon_default * smallest_normal := by
    constructor
    · rintro (he | ⟨-, -, hlt⟩ | ⟨-, hnc, -⟩)
      · exact absurd he hab
      · exact hlt
      · exact absurd (hz.imp id Or.inl) hnc
    · intro hlt
      refine Or.inr (Or.inl ⟨hab, ?_, hlt⟩)
      exact hz.imp id Or.inl
  refine ⟨hiff, ?_⟩
  intro hge hne
  rw [hiff] at hne
  have : epsilon_default * smallest_normal < 1 * smallest_normal :=
    mul_lt_mul_of_pos_right epsilon_default_lt_one smallest_normal_pos
  linarith

/-- Claim C4, witness: `nearly_equal(0, 1)` is false even though `1` and
`0` differ by a perfectly ordinary amount. -/
theorem nearly_equal_near_zero_exact_witness :
    (((0:ℝ) = 0 ∧ (1:ℝ) ≠ 0) ∨ ((1:ℝ) = 0 ∧ (0:ℝ) ≠ 0)) ∧
      ¬ nearly_equal 0 1 epsilon_default :=
  ⟨Or.inl ⟨rfl, one_ne_zero⟩,
    (nearly_equal_near_zero_exact 0 1 (Or.inl ⟨rfl, one_ne_zero⟩)).2
      (by rw [show |(0:ℝ) - 1| = 1 by norm_num]
          exact smallest_normal_le_one)⟩

/-! ## Claim C3: `same_direction` -/

theorem Vec3.dot_self_nonneg (v : Vec3) : 0 ≤ Vec3.dot v v := by
  unfold Vec3.dot
  nlinarith [mul_self_nonneg v.x, mul_self_nonneg v.y, mul_self_nonneg v.z]

theorem Vec3.dot_self_pos (v : Vec3) (hv : v ≠ 0) : 0 < Vec3.dot v v := by
  rcases (Vec3.dot_self_nonneg v).lt_or_eq with h | h
  · exact h
  · exfalso
    apply hv
    have h' : v.x * v.x + v.y * v.y + v.z * v.z = 0 := by
      unfold Vec3.dot at h
      linarith
    have hx : v.x * v.x = 0 := by
      nlinarith [mul_self_nonneg v.x, mul_self_nonneg v.y,
        mul_self_nonneg v.z]
    have hy : v.y * v.y = 0 := by
      nlinarith [mul_self_nonneg v.x, mul_self_nonneg v.y,
        mul_self_nonneg v.z]
    have hz : v.z * v.z = 0 := by
      nlinarith [mul_self_nonneg v.x, mul_self_nonneg v.y,
        mul_self_nonneg v.z]
    rw [Vec3.ext_iff]
    refine ⟨?_, ?_, ?_⟩ <;>
      simp [mul_self_eq_zero.mp hx, mul_self_eq_zero.mp hy,
        mul_self_eq_zero.mp hz]

theorem Vec3.length_eq_sqrt_dot (v : Vec3) :
    v.length = Real.sqrt (Vec3.dot v v) := by
  unfold Vec3.length Vec3.dot
  congr 1
  ring

theorem Vec3.angle_self (v : Vec3) (hv : v ≠ 0) : v.angle v = 0 := by
  unfold Vec3.angle
  have hd := Vec3.dot_self_pos v hv
  rw [Vec3.length_eq_sqrt_dot, Real.mul_self_sqrt hd.le, div_self hd.ne']
  exact Real.arccos_one

theorem Vec3.angle_neg_self (v : Vec3) (hv : v ≠ 0) :
    v.angle (-v) = Real.pi := by
  unfold Vec3.angle
  have hd := Vec3.dot_self_pos v hv
  have h1 : Vec3.dot v (-v) = -(Vec3.dot v v) := by
    unfold Vec3.dot
    simp only [Vec3.neg_x, Vec3.neg_y, Vec3.neg_z]
    ring
  have h2 : (-v).length = v.length := by
    unfold Vec3.length
    simp only [Vec3.neg_x, Vec3.neg_y, Vec3.neg_z]
    ring_nf
  rw [h1, h2, Vec3.length_eq_sqrt_dot, Real.mul_self_sqrt hd.le, neg_div,
    div_self hd.ne']
  exact Real.arccos_neg_one

theorem Vec3.angle_of_dot_eq_zero (v w : Vec3) (h : Vec3.dot v w = 0) :
    v.angle w = Real.pi / 2 := by
  unfold Vec3.angle
  rw [h, zero_div]
  exact Real.arccos_zero

theorem not_nearly_equal_pi_div_two_zero :
    ¬ nearly_equal (Real.pi / 2) 0 epsilon_default := by
  intro h
  have hpi := Real.pi_gt_three
  rcases h with he | ⟨-, -, hlt⟩ | ⟨-, hnc, -⟩
  · linarith
  · rw [sub_zero, abs_of_pos (by linarith)] at hlt
    have := eps_mul_sn_le_one
    linarith
  · exact hnc (Or.inr (Or.inl rfl))

theorem not_nearly_equal_pi_div_two_pi :
    ¬ nearly_equal (Real.pi / 2) Real.pi epsilon_default := by
  intro h
  have hpi := Real.pi_gt_three
  have habs : |Real.pi / 2 - Real.pi| = Real.pi / 2 := by
    rw [abs_of_nonpos (by linarith)]
    ring
  rcases h with he | ⟨-, -, hlt⟩ | ⟨-, -, hlt⟩
  · linarith
  · rw [habs] at hlt
    have := eps_mul_sn_le_one
    linarith
  · rw [habs, abs_of_pos (by linarith : (0:ℝ) < Real.pi / 2),
      abs_of_pos (by linarith : (0:ℝ) < Real.pi)] at hlt
    have he3 : (Real.pi / 2) / (Real.pi / 2 + Real.pi) = 1 / 3 := by
      rw [div_eq_div_iff (by linarith) (by norm_num)]
      ring
    rw [he3] at hlt
    unfold epsilon_default at hlt
    norm_num at hlt

/-- Claim C3: `same_direction` is symmetric; on any nonzero vector it
accepts the vector itself and its negation, and rejects every nonzero
vector orthogonal to it (angle pi/2 is neither nearly 0 nor nearly
pi). -/
theorem same_direction_spec (v : Vec3) (hv : v ≠ 0) :
    (∀ w, same_direction v w ↔ same_direction w v) ∧
      same_direction v v ∧
      same_direction v (-v) ∧
      (∀ w, w ≠ 0 → Vec3.dot v w = 0 → ¬ same_direction v w) := by
  refine ⟨?_, ?_, ?_, ?_⟩
  · intro w
    have h : v.angle w = w.angle v := by
      unfold Vec3.angle
      rw [show Vec3.dot v w = Vec3.dot w v by unfold Vec3.dot; ring,
        mul_comm]
    unfold same_direction
    rw [h]
  · unfold same_direction
    rw [Vec3.angle_self v hv]
    exact Or.inl (Or.inl rfl)
  · unfold same_direction
    rw [Vec3.angle_neg_self v hv]
    exact Or.inr (Or.inl rfl)
  · intro w _ hdot hsd
    unfold same_direction at hsd
    rw [Vec3.angle_of_dot_eq_zero v w hdot] at hsd
    rcases hsd with h | h
    · exact not_nearly_equal_pi_div_two_zero h
    · exact not_nearly_equal_pi_div_two_pi h

/-- Claim C3, witness: the x unit vector compared with itself and with
the orthogonal y unit vector. -/
theorem same_direction_spec_witness :
    ((⟨1, 0, 0⟩ : Vec3) ≠ 0) ∧
      same_direction ⟨1, 0, 0⟩ ⟨1, 0, 0⟩ ∧
      ¬ same_direction ⟨1, 0, 0⟩ ⟨0, 1, 0⟩ :=
  have hv : (⟨1, 0, 0⟩ : Vec3) ≠ 0 := fun h =>
    one_ne_zero (congrArg Vec3.x h)
  have hw : (⟨0, 1, 0⟩ : Vec3) ≠ 0 := fun h =>
    one_ne_zero (congrArg Vec3.y h)
  ⟨hv, (same_direction_spec ⟨1, 0, 0⟩ hv).2.1,
    (same_direction_spec ⟨1, 0, 0⟩ hv).2.2.2 ⟨0, 1, 0⟩ hw
      (by unfold Vec3.dot; norm_num)⟩

/-! ## Claim C5: `TenonFace.get_scale_factor` -/

/-- Helper: the world length of the concrete x-axis edge of length 2
under the identity matrix. -/
theorem world_length_axis_edge :
    world_length ⟨⟨0, 0, 0⟩, ⟨2, 0, 0⟩⟩ id = 2 := by
  unfold world_length Vec3.length
  simp only [id_eq, Vec3.sub_x, Vec3.sub_y, Vec3.sub_z]
  rw [show ((0:ℝ) - 2) ^ 2 + ((0:ℝ) - 0) ^ 2 + ((0:ℝ) - 0) ^ 2 = 2 ^ 2 by
    norm_num]
  exact Real.sqrt_sq (by norm_num)

/-- Claim C5: the scale factor is the resize value divided by the
reference edge's world length, and the concrete instance — identity
matrix, edge of length `2.0`, resize value `1.0` — gives exactly
`0.5`. -/
theorem get_scale_factor_spec (reference_edge : GeomEdge)
    (matrix_world : Vec3 → Vec3) (resize_value : ℝ)
    (h : world_length reference_edge matrix_world ≠ 0) :
    TenonFace.get_scale_factor reference_edge matrix_world resize_value =
        resize_value / world_length reference_edge matrix_world ∧
      TenonFace.get_scale_factor ⟨⟨0, 0, 0⟩, ⟨2, 0, 0⟩⟩ id 1 = 1 / 2 := by
  refine ⟨rfl, ?_⟩
  have hw : TenonFace.get_scale_factor ⟨⟨0, 0, 0⟩, ⟨2, 0, 0⟩⟩ id 1 =
      1 / world_length ⟨⟨0, 0, 0⟩, ⟨2, 0, 0⟩⟩ id := rfl
  rw [hw, world_length_axis_edge]

/-- Claim C5, witness: the concrete edge of world length two under the
identity matrix. -/
theorem get_scale_factor_spec_witness :
    world_length ⟨⟨0, 0, 0⟩, ⟨2, 0, 0⟩⟩ id ≠ 0 ∧
      TenonFace.get_scale_factor ⟨⟨0, 0, 0⟩, ⟨2, 0, 0⟩⟩ id 1 =
        1 / world_length ⟨⟨0, 0, 0⟩, ⟨2, 0, 0⟩⟩ id :=
  have hne : world_length ⟨⟨0, 0, 0⟩, ⟨2, 0, 0⟩⟩ id ≠ 0 := by
    rw [world_length_axis_edge]
    norm_num
  ⟨hne, (get_scale_factor_spec ⟨⟨0, 0, 0⟩, ⟨2, 0, 0⟩⟩ id 1 hne).1⟩

/-! ## Claim C6: `TenonFace.compute_translation_vector_given_shoulder` -/

/-- Claim C6: when the two endpoints of the reference edge are at
different distances from the shoulder's origin face edge, the result is
`scale_factor * e - e = (scale_factor - 1) * e` where `e` is the
world-space vector from the endpoint nearer the origin face edge to the
farther one. -/
theorem compute_translation_vector_given_shoulder_spec
    (reference_edge : GeomEdge) (shoulder : GeomShoulder)
    (scale_factor : ℝ) (matrix_world : Vec3 → Vec3)
    (h : distance_point_edge reference_edge.v0 shoulder.origin_face_edge ≠
      distance_point_edge reference_edge.v1 shoulder.origin_face_edge) :
    ∃ far near : Vec3,
      ((far = reference_edge.v1 ∧ near = reference_edge.v0) ∨
        (far = reference_edge.v0 ∧ near = reference_edge.v1)) ∧
      distance_point_edge near shoulder.origin_face_edge <
        distance_point_edge far shoulder.origin_face_edge ∧
      TenonFace.compute_translation_vector_given_shoulder reference_edge
          shoulder scale_factor matrix_world =
        scale_factor • (matrix_world far - matrix_world near) -
          (matrix_world far - matrix_world near) ∧
      TenonFace.compute_translation_vector_given_shoulder reference_edge
          shoulder scale_factor matrix_world =
        (scale_factor - 1) • (matrix_world far - matrix_world near) := by
  have hsm : ∀ s : ℝ, ∀ e : Vec3, s • e - e = (s - 1) • e := by
    intro s e
    rw [Vec3.ext_iff]
    refine ⟨?_, ?_, ?_⟩ <;> simp <;> ring
  rcases h.lt_or_lt with hlt | hlt
  · refine ⟨reference_edge.v1, reference_edge.v0, Or.inl ⟨rfl, rfl⟩, hlt,
      ?_, ?_⟩
    · simp only [TenonFace.compute_translation_vector_given_shoulder]
      rw [if_pos hlt]
    · simp only [TenonFace.compute_translation_vector_given_shoulder]
      rw [if_pos hlt, hsm]
  · refine ⟨reference_edge.v0, reference_edge.v1, Or.inr ⟨rfl, rfl⟩, hlt,
      ?_, ?_⟩
    · simp only [TenonFace.compute_translation_vector_given_shoulder]
      rw [if_neg (not_lt.mpr hlt.le)]
    · simp only [TenonFace.compute_translation_vector_given_shoulder]
      rw [if_neg (not_lt.mpr hlt.le), hsm]

/-- Helper: distance from `(0, c, 0)` to the x axis is `|c|`, at the two
concrete points used in the witness. -/
theorem distance_point_edge_y_axis_one :
    distance_point_edge ⟨0, 1, 0⟩ ⟨⟨0, 0, 0⟩, ⟨1, 0, 0⟩⟩ = 1 := by
  unfold distance_point_edge intersect_point_line Vec3.dot Vec3.length
  simp only [Vec3.sub_x, Vec3.sub_y, Vec3.sub_z, Vec3.add_x, Vec3.add_y,
    Vec3.add_z, Vec3.smul_x, Vec3.smul_y, Vec3.smul_z]
  norm_num

theorem distance_point_edge_y_axis_two :
    distance_point_edge ⟨0, 2, 0⟩ ⟨⟨0, 0, 0⟩, ⟨1, 0, 0⟩⟩ = 2 := by
  unfold distance_point_edge intersect_point_line Vec3.dot Vec3.length
  simp only [Vec3.sub_x, Vec3.sub_y, Vec3.sub_z, Vec3.add_x, Vec3.add_y,
    Vec3.add_z, Vec3.smul_x, Vec3.smul_y, Vec3.smul_z]
  norm_num
  rw [show (4:ℝ) = 2 ^ 2 by norm_num]
  exact Real.sqrt_sq (by norm_num)

/-- Claim C6, witness: reference edge endpoints at distances 1 and 2 from
the x-axis origin edge, identity matrix, scale factor 3. -/
theorem compute_translation_vector_given_shoulder_spec_witness :
    (distance_point_edge (GeomEdge.mk ⟨0, 1, 0⟩ ⟨0, 2, 0⟩).v0
        (GeomShoulder.mk ⟨⟨0, 0, 0⟩, ⟨1, 0, 0⟩⟩).origin_face_edge ≠
      distance_point_edge (GeomEdge.mk ⟨0, 1, 0⟩ ⟨0, 2, 0⟩).v1
        (GeomShoulder.mk ⟨⟨0, 0, 0⟩, ⟨1, 0, 0⟩⟩).origin_face_edge) ∧
      (∃ far near : Vec3,
        ((far = (GeomEdge.mk ⟨0, 1, 0⟩ ⟨0, 2, 0⟩).v1 ∧
            near = (GeomEdge.mk ⟨0, 1, 0⟩ ⟨0, 2, 0⟩).v0) ∨
          (far = (GeomEdge.mk ⟨0, 1, 0⟩ ⟨0, 2, 0⟩).v0 ∧
            near = (GeomEdge.mk ⟨0, 1, 0⟩ ⟨0, 2, 0⟩).v1)) ∧
        distance_point_edge near
            (GeomShoulder.mk ⟨⟨0, 0, 0⟩, ⟨1, 0, 0⟩⟩).origin_face_edge <
          distance_point_edge far
            (GeomShoulder.mk ⟨⟨0, 0, 0⟩, ⟨1, 0, 0⟩⟩).origin_face_edge ∧
        TenonFace.compute_translation_vector_given_shoulder
            (GeomEdge.mk ⟨0, 1, 0⟩ ⟨0, 2, 0⟩)
            (GeomShoulder.mk ⟨⟨0, 0, 0⟩, ⟨1, 0, 0⟩⟩) 3 id =
          (3:ℝ) • (id far - id near) - (id far - id near) ∧
        TenonFace.compute_translation_vector_given_shoulder
            (GeomEdge.mk ⟨0, 1, 0⟩ ⟨0, 2, 0⟩)
            (GeomShoulder.mk ⟨⟨0, 0, 0⟩, ⟨1, 0, 0⟩⟩) 3 id =
          ((3:ℝ) - 1) • (id far - id near)) :=
  have hne : distance_point_edge (GeomEdge.mk ⟨0, 1, 0⟩ ⟨0, 2, 0⟩).v0
      (GeomShoulder.mk ⟨⟨0, 0, 0⟩, ⟨1, 0, 0⟩⟩).origin_face_edge ≠
      distance_point_edge (GeomEdge.mk ⟨0, 1, 0⟩ ⟨0, 2, 0⟩).v1
        (GeomShoulder.mk ⟨⟨0, 0, 0⟩, ⟨1, 0, 0⟩⟩).origin_face_edge := by
    show distance_point_edge ⟨0, 1, 0⟩ ⟨⟨0, 0, 0⟩, ⟨1, 0, 0⟩⟩ ≠
      distance_point_edge ⟨0, 2, 0⟩ ⟨⟨0, 0, 0⟩, ⟨1, 0, 0⟩⟩
    rw [distance_point_edge_y_axis_one, distance_point_edge_y_axis_two]
    norm_num
  ⟨hne, compute_translation_vector_given_shoulder_spec
    (GeomEdge.mk ⟨0, 1, 0⟩ ⟨0, 2, 0⟩)
    (GeomShoulder.mk ⟨⟨0, 0, 0⟩, ⟨1, 0, 0⟩⟩) 3 id hne⟩

end Woodwork
